import Mathlib

/-!
Verification development for the chart price-annotation subsystem
(`src/backend/utils/image_annotator.py` and the JSON extraction front-end in
`src/backend/main.py`).

Modelling conventions (shallow embedding of the Python source):
* Python `float` values are modelled as exact rationals (`ℚ`); `int()`
  truncation and `round()` are modelled explicitly.
* Python/JSON values flowing through the analysis record are modelled by the
  inductive type `Json` below; Python truthiness, `dict.get`, iteration and
  the `== False` comparison are modelled by `truthy`, `pyGet`/`objGetE`,
  `pyIterE` and `pyEqFalse`.
* Exceptions (`AttributeError` on `.get` of a non-dict, `TypeError` on
  iterating / regex-matching a non-sequence) are modelled by `Except PyErr`.
* PIL raster drawing is abstracted to an overlay list: every logical visual
  the code draws (arrow, dashed line, label-with-background) is recorded as
  one `Element` carrying the pixel coordinates computed by the code.
  An image is pixel-identical to the input exactly when no element was drawn.
* All recursions are structural (on an explicit fuel bound where needed) so
  that every definition evaluates inside the kernel.
-/

namespace ChartAnnot

/-- Internal error kinds raised by the modelled Python code. -/
inductive PyErr where
  | attributeError
  | typeError
deriving DecidableEq

/-- JSON / Python values carried by the analysis record
(`dict` → `obj`, `list` → `arr`, `None` → `null`). -/
inductive Json where
  | null
  | bool (b : Bool)
  | num (q : ℚ)
  | str (s : String)
  | arr (elems : List Json)
  | obj (fields : List (String × Json))

/-- Python truthiness of a `Json` value. -/
def truthy : Json → Bool
  | .null => false
  | .bool b => b
  | .num q => q ≠ 0
  | .str s => !s.isEmpty
  | .arr l => !l.isEmpty
  | .obj f => !f.isEmpty

/-- First binding of a key in an object's field list (`None` when absent),
modelling `dict.get(key)`. -/
def lookupField (fs : List (String × Json)) (k : String) : Json :=
  match fs.find? (fun kv => kv.1 == k) with
  | some kv => kv.2
  | none => .null

/-- `analysis.get(key)` where the receiver is known to be a dict;
on a non-dict receiver this total variant returns `None` (it is only used at
call sites the source guards with an `isinstance`/entry check). -/
def pyGet (a : Json) (k : String) : Json :=
  match a with
  | .obj fs => lookupField fs k
  | _ => .null

/-- `value.get(key)` on an arbitrary value: raises `AttributeError` unless the
receiver is a dict. -/
def objGetE (v : Json) (k : String) : Except PyErr Json :=
  match v with
  | .obj fs => .ok (lookupField fs k)
  | _ => .error .attributeError

/-- `value.get(key, default)` on an arbitrary value. -/
def objGetDE (v : Json) (k : String) (d : Json) : Except PyErr Json :=
  match v with
  | .obj fs =>
    .ok (match fs.find? (fun kv => kv.1 == k) with
         | some kv => kv.2
         | none => d)
  | _ => .error .attributeError

/-- Python iteration over a value: lists yield their elements, strings their
characters, dicts their keys; other values raise `TypeError`. -/
def pyIterE (v : Json) : Except PyErr (List Json) :=
  match v with
  | .arr l => .ok l
  | .str s => .ok (s.toList.map (fun c => .str (String.singleton c)))
  | .obj fs => .ok (fs.map (fun kv => .str kv.1))
  | _ => .error .typeError

/-- The Python comparison `x == False` for JSON-representable `x`:
true exactly for the boolean `False` and the numbers `0` / `0.0`. -/
def pyEqFalse : Json → Bool
  | .bool b => !b
  | .num q => q == 0
  | _ => false

/-- Python `int()` applied to a float: truncation toward zero. -/
def pyInt (q : ℚ) : ℤ :=
  if 0 ≤ q then ⌊q⌋ else -⌊-q⌋

/-- Smallest exponent `k ≤ 40` with `d ∣ 10 ^ k`, used to print terminating
decimal expansions. -/
def decPow (d : ℕ) : Option ℕ :=
  (List.range 41).find? (fun k => 10 ^ k % d == 0)

/-- Decimal rendering of a rational, modelling Python `str` on the numbers
that arise from JSON (integers print without a decimal point). -/
def qStr (q : ℚ) : String :=
  if q.den = 1 then toString q.num
  else
    match decPow q.den with
    | some k =>
      let scaled := q.num.natAbs * (10 ^ k / q.den)
      let s := toString scaled
      let s := if s.length ≤ k then String.mk (List.replicate (k + 1 - s.length) '0') ++ s else s
      let intPart := s.dropRight k
      let fracPart := s.takeRight k
      (if q.num < 0 then "-" else "") ++ intPart ++ "." ++ fracPart
    | none => toString q.num ++ "/" ++ toString q.den

/-- Python `str()` of a JSON value. Scalars are rendered faithfully; for
containers only the fact that the rendering is not a numeral is observable
downstream (every use feeds `parse_price`, where a bracketed/braced rendering
fails exactly like the real `repr`), so containers render as fixed
placeholders. -/
def pyStr : Json → String
  | .null => "None"
  | .bool b => if b then "True" else "False"
  | .num q => qStr q
  | .str s => s
  | .arr _ => "[list]"
  | .obj _ => "(dict)"

/-- The whitespace class Python strips / regex `\s` matches (ASCII range). -/
def isPySpace (c : Char) : Bool :=
  c = ' ' || c = '\t' || c = '\n' || c = '\r' || c = Char.ofNat 11 || c = Char.ofNat 12

/-- `str.strip()`: remove leading and trailing whitespace. -/
def stripChars (cs : List Char) : List Char :=
  ((cs.dropWhile isPySpace).reverse.dropWhile isPySpace).reverse

def startsWithL : List Char → List Char → Bool
  | [], _ => true
  | _ :: _, [] => false
  | p :: ps, c :: cs => p = c && startsWithL ps cs

/-- Python `pat in s` substring test. -/
def containsSub (pat : List Char) : List Char → Bool
  | [] => startsWithL pat []
  | cs@(_ :: tl) => startsWithL pat cs || containsSub pat tl

/-- One fuel-indexed pass of `str.replace(pat, rep)` (left-to-right,
non-overlapping). -/
def replaceSub (pat rep : List Char) : Nat → List Char → List Char
  | 0, cs => cs
  | _, [] => []
  | f + 1, cs@(c :: tl) =>
    if startsWithL pat cs then rep ++ replaceSub pat rep f (cs.drop pat.length)
    else c :: replaceSub pat rep f tl

/-- `str.replace(pat, rep)` with all occurrences replaced. -/
def replaceAll (pat rep cs : List Char) : List Char :=
  replaceSub pat rep cs.length cs

def splitDigits (cs : List Char) : List Char × List Char :=
  (cs.takeWhile Char.isDigit, cs.dropWhile Char.isDigit)

def digitsVal (ds : List Char) : ℕ :=
  ds.foldl (fun a c => a * 10 + (c.toNat - 48)) 0

/-- Model of Python `float(s)` on finite decimal/scientific numerals:
optional sign, digits with an optional fractional part (at least one digit in
mantissa), optional exponent. Non-finite literals (`inf`, `nan`) and digit
underscores are outside the model. -/
def pyFloatChars (cs : List Char) : Option ℚ :=
  let cs := stripChars cs
  let (sign, cs) :=
    match cs with
    | '+' :: r => ((1 : ℚ), r)
    | '-' :: r => ((-1 : ℚ), r)
    | r => ((1 : ℚ), r)
  let (ip, cs) := splitDigits cs
  let (fp, cs) :=
    match cs with
    | '.' :: r =>
      let (f, r2) := splitDigits r
      (some f, r2)
    | r => ((none : Option (List Char)), r)
  if ip.isEmpty && (match fp with | some f => f.isEmpty | none => true) then none
  else
    let mant : ℚ := (digitsVal ip : ℚ) +
      (match fp with
       | some f => (digitsVal f : ℚ) / ((10 ^ f.length : ℕ) : ℚ)
       | none => 0)
    match cs with
    | [] => some (sign * mant)
    | e :: r =>
      if e = 'e' || e = 'E' then
        let (esign, r2) :=
          match r with
          | '+' :: rr => ((1 : ℤ), rr)
          | '-' :: rr => ((-1 : ℤ), rr)
          | rr => ((1 : ℤ), rr)
        let (ed, r3) := splitDigits r2
        if ed.isEmpty || !r3.isEmpty then none
        else some (sign * mant * (10 : ℚ) ^ (esign * (digitsVal ed : ℤ)))
      else none

/-- The cleaning stage of `parse_price`:
`str.replace('$','').replace(',','').replace(' ','').strip().upper()`. -/
def cleanPrice (s : String) : List Char :=
  (stripChars (s.toList.filter (fun c => c ≠ '$' && c ≠ ',' && c ≠ ' '))).map Char.toUpper

/-- The suffix stage of `parse_price`: returns the numeral candidate passed to
`float()` together with the multiplier (MILLION/MILL, K/THOUSAND, M, B). -/
def numeralAndMult (cs : List Char) : List Char × ℚ :=
  if containsSub "MILLION".toList cs || containsSub "MILL".toList cs then
    (replaceAll "MILL".toList [] (replaceAll "MILLION".toList [] cs), 1000000)
  else if cs.getLast? = some 'K' || containsSub "THOUSAND".toList cs then
    (if cs.getLast? = some 'K' then cs.dropLast else replaceAll "THOUSAND".toList [] cs, 1000)
  else if cs.getLast? = some 'M' then (cs.dropLast, 1000000)
  else if cs.getLast? = some 'B' then (cs.dropLast, 1000000000)
  else (cs, 1)

/-- `parse_price` from `image_annotator.py`: clean, handle unit suffixes,
convert; `None` on any parse failure (the `except` branch). -/
def parse_price (s : String) : Option ℚ :=
  if s.isEmpty then none
  else
    let (n, m) := numeralAndMult (cleanPrice s)
    match pyFloatChars n with
    | some v => some (v * m)
    | none => none

/-- `add_price` inside `get_price_range`: a truthy, parseable price token
contributes one value. -/
def addPrice (v : Json) : List ℚ :=
  if truthy v then
    match parse_price (pyStr v) with
    | some q => [q]
    | none => []
  else []

/-- Price collection from a dict-valued field
(`analysis['entry'].get('price')` under the source's truthiness guard);
raises `AttributeError` when the truthy field is not a dict. -/
def fieldPriceE (a : Json) (k : String) : Except PyErr (List ℚ) :=
  let f := pyGet a k
  if truthy f then do
    let p ← objGetE f "price"
    if truthy p then pure (addPrice p) else pure []
  else pure []

/-- The `for tp in ...: if tp.get('price'): add_price(...)` loop body. -/
def levelLoop : List Json → Except PyErr (List ℚ)
  | [] => .ok []
  | it :: rest => do
    let p ← objGetE it "price"
    let here := if truthy p then addPrice p else []
    let more ← levelLoop rest
    pure (here ++ more)

/-- Price collection from a list-valued field (take-profits, support and
resistance levels). -/
def levelPricesE (a : Json) (k : String) : Except PyErr (List ℚ) :=
  let f := pyGet a k
  if truthy f then do
    let items ← pyIterE f
    levelLoop items
  else pure []

/-- The SECOND-PRIORITY collection of `get_price_range`: every parseable
price across current price, entry, stop loss, take profits, support and
resistance levels, in source order. -/
def collectPrices (a : Json) : Except PyErr (List ℚ) := do
  let l2 ← fieldPriceE a "entry"
  let l3 ← fieldPriceE a "stop_loss"
  let l4 ← levelPricesE a "take_profits"
  let l5 ← levelPricesE a "support_levels"
  let l6 ← levelPricesE a "resistance_levels"
  pure (addPrice (pyGet a "current_price") ++ l2 ++ l3 ++ l4 ++ l5 ++ l6)

/-- The FIRST-PRIORITY branch of `get_price_range`: the chart's own visible
axis bounds, used only when both are truthy, both parse, and min < max. -/
def chartBoundsOpt (a : Json) : Option (ℚ × ℚ) :=
  let cmin := pyGet a "chart_min_price"
  let cmax := pyGet a "chart_max_price"
  if truthy cmin && truthy cmax then
    match parse_price (pyStr cmin), parse_price (pyStr cmax) with
    | some pmin, some pmax => if pmin < pmax then some (pmin, pmax) else none
    | _, _ => none
  else none

/-- `min(values)` of a collected list (0 on the empty list, unreached). -/
def listMin : List ℚ → ℚ
  | [] => 0
  | p :: rest => rest.foldl min p

/-- `max(values)` of a collected list. -/
def listMax : List ℚ → ℚ
  | [] => 0
  | p :: rest => rest.foldl max p

/-- The magnitude-adaptive padding fraction of `get_price_range`. -/
def padFrac (span : ℚ) : ℚ :=
  if 1000000 < span then 1 / 20 else if 1000 < span then 1 / 10 else 3 / 20

/-- The fallback/padding arm of `get_price_range` applied to the collected
values: default `(0,100)`, single-value 20% window, or padded min/max. -/
def rangeFromPrices (ps : List ℚ) : ℚ × ℚ :=
  match ps with
  | [] => (0, 100)
  | p :: rest =>
    if rest.isEmpty then (p * (1 - 1 / 5), p * (1 + 1 / 5))
    else
      let mn := rest.foldl min p
      let mx := rest.foldl max p
      let span := mx - mn
      let padding := span * padFrac span
      (mn - padding, mx + padding)

/-- `get_price_range` from `image_annotator.py`. -/
def get_price_range (a : Json) : Except PyErr (ℚ × ℚ) :=
  match chartBoundsOpt a with
  | some r => .ok r
  | none => do
    let ps ← collectPrices a
    pure (rangeFromPrices ps)

/-- `estimate_price_y_position` from `image_annotator.py`: linear
interpolation of a price into a vertical pixel coordinate, with clamping;
degenerate range maps to the image's vertical centre. -/
def estimate_price_y_position (price min_price max_price : ℚ)
    (image_height chart_top chart_bottom : ℤ) : ℤ :=
  let chart_height := image_height - chart_top - chart_bottom
  let price_range := max_price - min_price
  if price_range ≤ 0 then Int.fdiv image_height 2
  else
    let clamped_price := max min_price (min price max_price)
    let normalized := (max_price - clamped_price) / price_range
    let normalized2 := max 0 (min 1 normalized)
    let y_pos := chart_top + pyInt (normalized2 * (chart_height : ℚ))
    max chart_top (min y_pos (image_height - chart_bottom))

/-! ### Raw-text price scraping (the two `re.findall` patterns) -/

/-- The keyword alternation of the first scrape pattern, in source order
(`price|entry|stop|loss|tp|take.profit|support|resistance`; the `.` in
`take.profit` is the regex wildcard). -/
def kwList : List (List Char) :=
  ["price", "entry", "stop", "loss", "tp", "take.profit", "support", "resistance"].map
    String.toList

/-- Case-insensitive keyword match at the head of the input; `.` in the
keyword matches any character except a newline. -/
def matchKw : List Char → List Char → Option (List Char)
  | [], cs => some cs
  | _ :: _, [] => none
  | k :: ks, c :: cs =>
    if k = '.' then (if c = '\n' then none else matchKw ks cs)
    else if c.toLower = k then matchKw ks cs
    else none

/-- One attempted match of pattern
`(?:price|entry|stop|...)[\s:]*\$?(\d+\.?\d*)` at the current position,
returning the captured numeral and the remaining input. -/
def matchAt1 (cs : List Char) : Option (List Char × List Char) :=
  kwList.findSome? (fun kw =>
    match matchKw kw cs with
    | none => none
    | some rest =>
      let rest := rest.dropWhile (fun c => isPySpace c || c = ':')
      let rest := match rest with | '$' :: r => r | r => r
      let (ds, r2) := splitDigits rest
      if ds.isEmpty then none
      else
        match r2 with
        | '.' :: r3 =>
          let (ds2, r4) := splitDigits r3
          some (ds ++ '.' :: ds2, r4)
        | _ => some (ds, r2))

/-- `re.findall` scan for the first scrape pattern: non-overlapping matches,
scanning left to right. -/
def scan1 : Nat → List Char → List String
  | 0, _ => []
  | _, [] => []
  | f + 1, cs@(_ :: tl) =>
    match matchAt1 cs with
    | some (cap, rest) => cap.asString :: scan1 f rest
    | none => scan1 f tl

/-- First scrape: keyword-anchored price tokens in the raw text. -/
def findall1 (s : String) : List String :=
  scan1 s.toList.length s.toList

def isWordChar (c : Char) : Bool := c.isAlphanum || c = '_'

/-- `\b` before a digit: start of input or a preceding non-word character. -/
def boundaryBefore : Option Char → Bool
  | none => true
  | some p => !isWordChar p

/-- `\b` after a digit: end of input or a following non-word character. -/
def endBoundary : List Char → Bool
  | [] => true
  | c :: _ => !isWordChar c

/-- Exactly `n` leading digits, or nothing. -/
def takeDigits (n : ℕ) (cs : List Char) : Option (List Char × List Char) :=
  let d := cs.take n
  if d.length = n && d.all Char.isDigit then some (d, cs.drop n) else none

/-- All prefixes of the `(?:,\d{3})*` chain at the current position, from 0
repetitions upward, each with the remaining input. -/
def cgList : Nat → List Char → List (List Char × List Char)
  | 0, cs => [([], cs)]
  | f + 1, cs =>
    ([], cs) ::
      (match cs with
       | ',' :: d1 :: d2 :: d3 :: r =>
         if d1.isDigit && d2.isDigit && d3.isDigit then
           (cgList f r).map (fun pr => (',' :: d1 :: d2 :: d3 :: pr.1, pr.2))
         else []
       | _ => [])

/-- One attempted match of the generic price pattern
`\b(\d{1,3}(?:,\d{3})*(?:\.\d{2})?)\b`, exploring the engine's backtracking
order (longest digit run first, most comma groups first, fraction first). -/
def matchAt2 (prev : Option Char) (cs : List Char) : Option (List Char × List Char) :=
  if !boundaryBefore prev then none
  else
    [3, 2, 1].findSome? (fun n1 =>
      match takeDigits n1 cs with
      | none => none
      | some (d0, r0) =>
        ((cgList r0.length r0).reverse).findSome? (fun cg =>
          [true, false].findSome? (fun useOpt =>
            if useOpt then
              match cg.2 with
              | '.' :: a :: b :: r2 =>
                if a.isDigit && b.isDigit && endBoundary r2 then
                  some (d0 ++ cg.1 ++ '.' :: a :: b :: [], r2)
                else none
              | _ => none
            else if endBoundary cg.2 then some (d0 ++ cg.1, cg.2) else none)))

/-- `re.findall` scan for the generic price pattern, tracking the previous
character for word boundaries. -/
def scan2 : Nat → Option Char → List Char → List String
  | 0, _, _ => []
  | _, _, [] => []
  | f + 1, prev, cs@(c :: tl) =>
    match matchAt2 prev cs with
    | some (cap, rest) => cap.asString :: scan2 f (cap.getLast? <|> some c) rest
    | none => scan2 f (some c) tl

/-- Second scrape: any number formatted like a price. -/
def findall2 (s : String) : List String :=
  scan2 s.toList.length none s.toList

/-! ### The chart annotator -/

/-- One logical visual drawn by `annotate_chart` (the raster primitives that
compose it — solid stroke, dash segments, background box, text — are
abstracted into a single element carrying the computed pixel coordinates). -/
inductive Element where
  | entryArrow (x y : ℤ)
  | entryLabel (x y : ℤ) (text : String)
  | slLine (x1 x2 y : ℤ)
  | slLabel (x y : ℤ) (text : String)
  | tpLine (idx : ℕ) (x1 x2 y : ℤ)
  | tpLabel (idx : ℕ) (x y : ℤ) (text : String)
  | supportLine (idx : ℕ) (x1 x2 y : ℤ)
  | supportLabel (idx : ℕ) (x y : ℤ) (text : String)
  | resistanceLine (idx : ℕ) (x1 x2 y : ℤ)
  | resistanceLabel (idx : ℕ) (x y : ℤ) (text : String)
deriving DecidableEq

/-- A PIL image: dimensions, colour mode, opaque base pixel content, and the
overlays drawn onto it. Two images are pixel-identical exactly when they are
equal (drawing any element changes the value). -/
structure PILImage where
  width : ℤ
  height : ℤ
  mode : String
  content : ℕ
  overlays : List Element

/-- The chart-area margins computed by `annotate_chart`
(`int(width*0.08)`, `int(width*0.95)`, `int(height*0.08)`, `int(height*0.92)`). -/
structure Geom where
  w : ℤ
  h : ℤ
  cl : ℤ
  cr : ℤ
  ct : ℤ
  cb : ℤ

def mkGeom (w h : ℤ) : Geom :=
  ⟨w, h, pyInt ((w : ℚ) * (8 / 100)), pyInt ((w : ℚ) * (95 / 100)),
    pyInt ((h : ℚ) * (8 / 100)), pyInt ((h : ℚ) * (92 / 100))⟩

/-- Entry rendering: green arrow at 75% width plus label, when
`entry.price` is present, parseable and truthy. -/
def entryElems (a : Json) (mn mx : ℚ) (g : Geom) : Except PyErr (List Element) :=
  let e := pyGet a "entry"
  if truthy e then do
    let pv ← objGetE e "price"
    if truthy pv then
      match parse_price (pyStr pv) with
      | some q =>
        if q ≠ 0 then
          let y := estimate_price_y_position q mn mx g.h g.ct (g.h - g.cb)
          let ex := pyInt ((g.w : ℚ) * (75 / 100))
          pure [.entryArrow ex y, .entryLabel (ex + 25) (y - 50) ("ENTRY\n" ++ pyStr pv)]
        else pure []
      | none => pure []
    else pure []
  else pure []

/-- Stop-loss rendering: full-width dashed red line plus left label. -/
def slElems (a : Json) (mn mx : ℚ) (g : Geom) : Except PyErr (List Element) :=
  let e := pyGet a "stop_loss"
  if truthy e then do
    let pv ← objGetE e "price"
    if truthy pv then
      match parse_price (pyStr pv) with
      | some q =>
        if q ≠ 0 then
          let y := estimate_price_y_position q mn mx g.h g.ct (g.h - g.cb)
          pure [.slLine g.cl g.cr y, .slLabel (g.cl + 15) (y - 20) ("STOP LOSS: " ++ pyStr pv)]
        else pure []
      | none => pure []
    else pure []
  else pure []

/-- The `for idx, tp in enumerate(take_profits)` loop. -/
def tpLoop (mn mx : ℚ) (g : Geom) : ℕ → List Json → Except PyErr (List Element)
  | _, [] => .ok []
  | idx, tp :: rest => do
    let pv ← objGetE tp "price"
    let here :=
      if truthy pv then
        match parse_price (pyStr pv) with
        | some q =>
          if q ≠ 0 then
            let y := estimate_price_y_position q mn mx g.h g.ct (g.h - g.cb)
            [Element.tpLine idx g.cl g.cr y,
             Element.tpLabel idx (g.cr - 120 + 8) (y - 15)
               ("TP" ++ toString (idx + 1) ++ ": " ++ pyStr pv)]
          else []
        | none => []
      else []
    let more ← tpLoop mn mx g (idx + 1) rest
    pure (here ++ more)

/-- Take-profit rendering: one dashed blue line and numbered label per level. -/
def tpElems (a : Json) (mn mx : ℚ) (g : Geom) : Except PyErr (List Element) :=
  let f := pyGet a "take_profits"
  if truthy f then do
    let items ← pyIterE f
    tpLoop mn mx g 0 items
  else pure []

/-- The `for idx, level in enumerate(support_levels[:5])` loop. -/
def supLoop (mn mx : ℚ) (g : Geom) : ℕ → List Json → Except PyErr (List Element)
  | _, [] => .ok []
  | idx, lv :: rest => do
    let pv ← objGetE lv "price"
    let here :=
      if truthy pv then
        match parse_price (pyStr pv) with
        | some q =>
          if q ≠ 0 then
            let y := estimate_price_y_position q mn mx g.h g.ct (g.h - g.cb)
            [Element.supportLine idx g.cl g.cr y,
             Element.supportLabel idx (g.cl + 10) (y - 18) ("Support: " ++ pyStr pv)]
          else []
        | none => []
      else []
    let more ← supLoop mn mx g (idx + 1) rest
    pure (here ++ more)

/-- Support rendering: up to the first 5 levels, yellow dashed lines. -/
def supportElems (a : Json) (mn mx : ℚ) (g : Geom) : Except PyErr (List Element) :=
  let f := pyGet a "support_levels"
  if truthy f then do
    let items ← pyIterE f
    supLoop mn mx g 0 (items.take 5)
  else pure []

/-- The `for idx, level in enumerate(resistance_levels[:5])` loop. -/
def resLoop (mn mx : ℚ) (g : Geom) : ℕ → List Json → Except PyErr (List Element)
  | _, [] => .ok []
  | idx, lv :: rest => do
    let pv ← objGetE lv "price"
    let here :=
      if truthy pv then
        match parse_price (pyStr pv) with
        | some q =>
          if q ≠ 0 then
            let y := estimate_price_y_position q mn mx g.h g.ct (g.h - g.cb)
            [Element.resistanceLine idx g.cl g.cr y,
             Element.resistanceLabel idx (g.cl + 10) (y - 18) ("Resistance: " ++ pyStr pv)]
          else []
        | none => []
      else []
    let more ← resLoop mn mx g (idx + 1) rest
    pure (here ++ more)

/-- Resistance rendering: up to the first 5 levels, orange dashed lines. -/
def resistanceElems (a : Json) (mn mx : ℚ) (g : Geom) : Except PyErr (List Element) :=
  let f := pyGet a "resistance_levels"
  if truthy f then do
    let items ← pyIterE f
    resLoop mn mx g 0 (items.take 5)
  else pure []

/-- The price re-collection of the degenerate-range fix-up inside
`annotate_chart`: only `current_price`, `entry` and `stop_loss`, each only
when it is a dict with a truthy `price` (note: a bare string
`current_price` is skipped by the `isinstance` test), with truthy parse
results only. -/
def fixKeyPrices (a : Json) : List ℚ :=
  ["current_price", "entry", "stop_loss"].foldl
    (fun acc k =>
      let v := pyGet a k
      acc ++
        (if truthy v then
          match v with
          | .obj fs =>
            let p := lookupField fs "price"
            if truthy p then
              match parse_price (pyStr p) with
              | some q => if q ≠ 0 then [q] else []
              | none => []
            else []
          | _ => []
        else []))
    []

/-- The take-profit part of the fix-up collection
(`parse_price(str(tp.get('price', '')))` for each entry). -/
def fixTpLoop : List Json → Except PyErr (List ℚ)
  | [] => .ok []
  | tp :: rest => do
    let pv ← objGetDE tp "price" (.str "")
    let here :=
      match parse_price (pyStr pv) with
      | some q => if q ≠ 0 then [q] else []
      | none => []
    let more ← fixTpLoop rest
    pure (here ++ more)

def fixTpPrices (a : Json) : Except PyErr (List ℚ) :=
  let f := pyGet a "take_profits"
  if truthy f then do
    let items ← pyIterE f
    fixTpLoop items
  else pure []

def listSum (l : List ℚ) : ℚ := l.foldl (· + ·) 0

def listAvg (l : List ℚ) : ℚ := listSum l / (l.length : ℚ)

/-- The range-resolution step of `annotate_chart` (the `try/except` around
`get_price_range` plus the `min_price >= max_price` fix-up): any internal
error yields `(0, 100)`; a degenerate or inverted estimate is replaced by a
±20% window around the mean of the fix-up prices, or `(0, 100)` if there are
none. -/
def resolveRange (a : Json) : ℚ × ℚ :=
  let attempt : Except PyErr (ℚ × ℚ) := do
    let r ← get_price_range a
    if r.2 ≤ r.1 then
      let allP := fixKeyPrices a ++ (← fixTpPrices a)
      if allP.isEmpty then pure (0, 100)
      else pure (listAvg allP * (4 / 5), listAvg allP * (6 / 5))
    else pure r
  match attempt with
  | .ok r => r
  | .error _ => (0, 100)

/-- `prices[i] if len(prices) > i else None` for the synthesised record. -/
def scrapedPrice (ps : List String) (i : ℕ) : Json :=
  match ps.get? i with
  | some p => .str p
  | none => .null

/-- The replacement record synthesised from scraped prices:
1st → entry, 2nd → stop loss, 3rd–4th → take profits. -/
def synthFromPrices (ps : List String) : Json :=
  .obj
    [("entry", .obj [("price", scrapedPrice ps 0)]),
     ("stop_loss", .obj [("price", scrapedPrice ps 1)]),
     ("take_profits",
       if 2 < ps.length then
         .arr (((ps.drop 2).take 2).map (fun p => .obj [("price", .str p)]))
       else .arr []),
     ("parsed", .bool true)]

/-- The `has_data = any([...])` eligibility test of `annotate_chart`. -/
def hasData (a : Json) : Bool :=
  truthy (pyGet a "entry") || truthy (pyGet a "stop_loss") ||
    truthy (pyGet a "take_profits") || truthy (pyGet a "support_levels") ||
    truthy (pyGet a "resistance_levels") || truthy (pyGet a "current_price")

/-- The degraded-recovery step of `annotate_chart`: when there is no
structured data but `parsed == False` (a Python comparison that also accepts
the number 0) and a truthy `raw_text`, scrape prices from the text and
synthesise a record; `re.findall` on a non-string raw text raises
`TypeError`. Returns the (possibly replaced) record and the final
`has_data`. -/
def scrapeStep (a : Json) : Except PyErr (Json × Bool) :=
  if hasData a then .ok (a, true)
  else if pyEqFalse (pyGet a "parsed") && truthy (pyGet a "raw_text") then
    match pyGet a "raw_text" with
    | .str s =>
      let ps := findall1 s
      let ps := if ps.isEmpty then findall2 s else ps
      if ps.isEmpty then .ok (a, false) else .ok (synthFromPrices ps, true)
    | _ => .error .typeError
  else .ok (a, false)

/-- `annotate_chart` from `image_annotator.py`: eligibility check, degraded
recovery, range resolution, then the five independent render stages onto a
copy of the input image. A non-dict record or one with no usable data
returns the input unchanged. Only the range-resolution step is inside a
`try/except`; errors in the render stages propagate. -/
def annotate_chart (img : PILImage) (a : Json) : Except PyErr PILImage :=
  match a with
  | .obj _ => do
    let st ← scrapeStep a
    if st.2 then
      let base := if img.mode ≠ "RGB" then { img with mode := "RGB" } else img
      let r := resolveRange st.1
      let g := mkGeom img.width img.height
      let e1 ← entryElems st.1 r.1 r.2 g
      let e2 ← slElems st.1 r.1 r.2 g
      let e3 ← tpElems st.1 r.1 r.2 g
      let e4 ← supportElems st.1 r.1 r.2 g
      let e5 ← resistanceElems st.1 r.1 r.2 g
      pure { base with overlays := base.overlays ++ e1 ++ e2 ++ e3 ++ e4 ++ e5 }
    else pure img
  | _ => .ok img

/-! ### JSON extraction (`extract_json_from_response` in `main.py`) -/

/-- JSON whitespace accepted by `json.loads` between tokens. -/
def skipWs (cs : List Char) : List Char :=
  cs.dropWhile (fun c => c = ' ' || c = '\t' || c = '\n' || c = '\r')

/-- Python-dict insertion for object members: a duplicate key overwrites in
place, otherwise the binding is appended. -/
def insertKey (fs : List (String × Json)) (k : String) (v : Json) : List (String × Json) :=
  if fs.any (fun kv => kv.1 == k) then fs.map (fun kv => if kv.1 == k then (k, v) else kv)
  else fs ++ [(k, v)]

def hexVal (c : Char) : Option ℕ :=
  if c.isDigit then some (c.toNat - 48)
  else if 'a' ≤ c && c ≤ 'f' then some (c.toNat - 87)
  else if 'A' ≤ c && c ≤ 'F' then some (c.toNat - 55)
  else none

/-- JSON string body after the opening quote: escapes are decoded, unescaped
control characters are rejected (strict mode). `\u` escapes decode to the
named code unit (surrogate-pair combination is outside the model). -/
def parseStrAux : Nat → List Char → Option (String × List Char)
  | 0, _ => none
  | f + 1, cs =>
    match cs with
    | [] => none
    | '"' :: r => some ("", r)
    | '\\' :: r =>
      (match r with
       | 'u' :: h1 :: h2 :: h3 :: h4 :: rr =>
         match hexVal h1, hexVal h2, hexVal h3, hexVal h4 with
         | some a, some b, some c, some d =>
           let n := ((a * 16 + b) * 16 + c) * 16 + d
           (parseStrAux f rr).map (fun pr => (String.singleton (Char.ofNat n) ++ pr.1, pr.2))
         | _, _, _, _ => none
       | e :: rr =>
         let dec : Option Char :=
           if e = '"' then some '"'
           else if e = '\\' then some '\\'
           else if e = '/' then some '/'
           else if e = 'b' then some (Char.ofNat 8)
           else if e = 'f' then some (Char.ofNat 12)
           else if e = 'n' then some '\n'
           else if e = 'r' then some '\r'
           else if e = 't' then some '\t'
           else none
         match dec with
         | some c => (parseStrAux f rr).map (fun pr => (String.singleton c ++ pr.1, pr.2))
         | none => none
       | [] => none)
    | c :: r =>
      if c.toNat < 32 then none
      else (parseStrAux f r).map (fun pr => (String.singleton c ++ pr.1, pr.2))

/-- Fraction and exponent of a JSON number (either is left unconsumed when
malformed, as the lexer's optional groups do). -/
def parseNumRest (neg : Bool) (ip : ℕ) (cs : List Char) : Option (Json × List Char) :=
  let frac :=
    match cs with
    | '.' :: r =>
      let (ds, r2) := splitDigits r
      if ds.isEmpty then ((0 : ℚ), cs)
      else ((digitsVal ds : ℚ) / ((10 ^ ds.length : ℕ) : ℚ), r2)
    | _ => ((0 : ℚ), cs)
  let expo :=
    match frac.2 with
    | e :: r =>
      if e = 'e' || e = 'E' then
        let (es, r2) :=
          match r with
          | '+' :: rr => ((1 : ℤ), rr)
          | '-' :: rr => ((-1 : ℤ), rr)
          | rr => ((1 : ℤ), rr)
        let (ds, r3) := splitDigits r2
        if ds.isEmpty then ((0 : ℤ), frac.2) else (es * (digitsVal ds : ℤ), r3)
      else ((0 : ℤ), frac.2)
    | [] => ((0 : ℤ), frac.2)
  let mant : ℚ := (ip : ℚ) + frac.1
  some (.num ((if neg then -mant else mant) * (10 : ℚ) ^ expo.1), expo.2)

/-- JSON number: optional minus, `0` or a nonzero-led digit run, optional
fraction and exponent. -/
def parseNum (cs : List Char) : Option (Json × List Char) :=
  let (neg, cs1) := match cs with | '-' :: r => (true, r) | r => (false, r)
  match cs1 with
  | '0' :: r => parseNumRest neg 0 r
  | c :: _ =>
    if c.isDigit then
      let (ds, r) := splitDigits cs1
      parseNumRest neg (digitsVal ds) r
    else none
  | [] => none

/-- Parser mode: a value, the member loop of an object, or the item loop of
an array (with the accumulated members/items). -/
inductive PMode where
  | val
  | members (acc : List (String × Json))
  | items (acc : List Json)

/-- Fuel-indexed recursive-descent parser modelling `json.loads` (strict
mode; `NaN`/`Infinity` literals are outside the model). -/
def parseP : Nat → PMode → List Char → Option (Json × List Char)
  | 0, _, _ => none
  | f + 1, .val, cs =>
    (match skipWs cs with
     | '{' :: r =>
       (match skipWs r with
        | '}' :: r2 => some (.obj [], r2)
        | r2 => parseP f (.members []) r2)
     | '[' :: r =>
       (match skipWs r with
        | ']' :: r2 => some (.arr [], r2)
        | r2 => parseP f (.items []) r2)
     | '"' :: r => (parseStrAux r.length r).map (fun pr => (.str pr.1, pr.2))
     | 't' :: 'r' :: 'u' :: 'e' :: r => some (.bool true, r)
     | 'f' :: 'a' :: 'l' :: 's' :: 'e' :: r => some (.bool false, r)
     | 'n' :: 'u' :: 'l' :: 'l' :: r => some (.null, r)
     | cs2 => parseNum cs2)
  | f + 1, .members acc, cs =>
    (match skipWs cs with
     | '"' :: r =>
       match parseStrAux r.length r with
       | none => none
       | some (k, r1) =>
         match skipWs r1 with
         | ':' :: r2 =>
           match parseP f .val r2 with
           | none => none
           | some (v, r3) =>
             let acc2 := insertKey acc k v
             match skipWs r3 with
             | ',' :: r4 => parseP f (.members acc2) r4
             | '}' :: r4 => some (.obj acc2, r4)
             | _ => none
         | _ => none
     | _ => none)
  | f + 1, .items acc, cs =>
    match parseP f .val cs with
    | none => none
    | some (v, r) =>
      match skipWs r with
      | ',' :: r2 => parseP f (.items (acc ++ [v])) r2
      | ']' :: r2 => some (.arr (acc ++ [v]), r2)
      | _ => none

/-- `json.loads`: a complete JSON document with only trailing whitespace. -/
def parseJson (s : String) : Option Json :=
  match parseP (2 * s.toList.length + 4) .val s.toList with
  | some (j, rest) => if (skipWs rest).isEmpty then some j else none
  | none => none

def backtickChar : Char := Char.ofNat 96

/-- The lazy `(\{.*?\})` of the fenced-block pattern: the earliest closing
brace followed by optional whitespace and three backticks; returns the
brace-delimited capture. -/
def findClose (acc : List Char) : List Char → Option (List Char)
  | [] => none
  | '}' :: r =>
    (match r.dropWhile isPySpace with
     | b1 :: b2 :: b3 :: _ =>
       if b1 = backtickChar && b2 = backtickChar && b3 = backtickChar then
         some (acc.reverse ++ ['}'])
       else findClose ('}' :: acc) r
     | _ => findClose ('}' :: acc) r)
  | c :: r => findClose (c :: acc) r

/-- One attempted match of the fenced-block pattern
three backticks, optional `json` tag, whitespace, then the lazy capture
at the current position. -/
def fencedAt (cs : List Char) : Option (List Char) :=
  match cs with
  | b1 :: b2 :: b3 :: r =>
    if b1 = backtickChar && b2 = backtickChar && b3 = backtickChar then
      let r1 := match r with | 'j' :: 's' :: 'o' :: 'n' :: rr => rr | rr => rr
      match r1.dropWhile isPySpace with
      | '{' :: body => findClose ['{'] body
      | _ => none
    else none
  | _ => none

/-- `re.search` for the fenced-block pattern: the leftmost position at which
a match begins. -/
def fencedScan : Nat → List Char → Option (List Char)
  | 0, _ => none
  | _, [] => none
  | f + 1, cs@(_ :: tl) =>
    match fencedAt cs with
    | some c => some c
    | none => fencedScan f tl

/-- Attempt 1 of `extract_json_from_response`: the capture of the first
fenced code block containing a brace-delimited body. -/
def fencedCandidate (s : String) : Option String :=
  (fencedScan s.toList.length s.toList).map List.asString

/-- Attempt 2, the greedy `\{.*\}` with DOTALL: the substring spanning from
the first opening brace to the last closing brace (when the latter comes
after the former). -/
def braceSpan (cs : List Char) : Option (List Char) :=
  let sub := cs.dropWhile (fun c => c ≠ '{')
  let r := sub.reverse.dropWhile (fun c => c ≠ '}')
  if 2 ≤ r.length then some r.reverse else none

def braceSpanStr (s : String) : Option String :=
  (braceSpan s.toList).map List.asString

/-- The raw-text wrapper record returned when no JSON parses. -/
def jsonFallback (t : String) : Json :=
  .obj [("raw_text", .str t), ("parsed", .bool false)]

/-- `extract_json_from_response` from `main.py`: fenced block first, then the
bare first-to-last brace span, then the raw-text fallback; total, hence it
never raises. -/
def extract_json_from_response (t : String) : Json :=
  let attempt2 : Json :=
    match braceSpanStr t with
    | some c =>
      match parseJson c with
      | some j => j
      | none => jsonFallback t
    | none => jsonFallback t
  match fencedCandidate t with
  | some c =>
    match parseJson c with
    | some j => j
    | none => attempt2
  | none => attempt2

/-! ### Statement helpers for the claims -/

def isOkB {α : Type} : Except PyErr α → Bool
  | .ok _ => true
  | .error _ => false

/-- Overlays of a successful annotation result (empty on error). -/
def okOverlays : Except PyErr PILImage → List Element
  | .ok i => i.overlays
  | .error _ => []

def entryArrowYs (es : List Element) : List ℤ :=
  es.filterMap (fun e => match e with | .entryArrow _ y => some y | _ => none)

def slLineYs (es : List Element) : List ℤ :=
  es.filterMap (fun e => match e with | .slLine _ _ y => some y | _ => none)

def tpLineYs (es : List Element) : List ℤ :=
  es.filterMap (fun e => match e with | .tpLine _ _ _ y => some y | _ => none)

/-- The claim's formula for `toPixelY`, with `round`: clamp the price,
normalise, invert, round, then clamp to the chart band. -/
def toPixelY_round (price mn mx : ℚ) (h ct cb : ℤ) : ℤ :=
  let chartH := h - ct - cb
  let clamped := max mn (min price mx)
  let normalized := max 0 (min 1 ((mx - clamped) / (mx - mn)))
  max ct (min (ct + round (normalized * (chartH : ℚ))) (h - cb))

/-- The amended formula for `toPixelY`: identical to the claim's but with
Python `int()` truncation in place of rounding. -/
def toPixelY_trunc (price mn mx : ℚ) (h ct cb : ℤ) : ℤ :=
  let chartH := h - ct - cb
  let clamped := max mn (min price mx)
  let normalized := max 0 (min 1 ((mx - clamped) / (mx - mn)))
  max ct (min (ct + pyInt (normalized * (chartH : ℚ))) (h - cb))

def isObjB (v : Json) : Bool :=
  match v with | .obj _ => true | _ => false

def isStrB (v : Json) : Bool :=
  match v with | .str _ => true | _ => false

/-- A truthy `entry`-like field must be a dict for rendering not to raise. -/
def dictOkB (v : Json) : Bool :=
  !truthy v || isObjB v

/-- A truthy levels field must be a list of dicts for rendering not to
raise. -/
def listOkB (v : Json) : Bool :=
  !truthy v ||
    (match v with
     | .arr l => l.all isObjB
     | _ => false)

/-- A truthy `raw_text` must be a string for the scrape not to raise. -/
def strOkB (v : Json) : Bool :=
  !truthy v || isStrB v

/-- Well-shapedness of a record's fields: exactly the conditions under which
no modelled exception point of `annotate_chart` fires. -/
def wellShaped (a : Json) : Bool :=
  dictOkB (pyGet a "entry") && dictOkB (pyGet a "stop_loss") &&
    listOkB (pyGet a "take_profits") && listOkB (pyGet a "support_levels") &&
    listOkB (pyGet a "resistance_levels") && strOkB (pyGet a "raw_text")

/-- The end-to-end record of the spec's testable property: entry 45000,
stop loss 44000, take profits 47000 and 49000. -/
def sampleTrade : Json :=
  .obj
    [("entry", .obj [("price", .str "45000")]),
     ("stop_loss", .obj [("price", .str "44000")]),
     ("take_profits", .arr [.obj [("price", .str "47000")], .obj [("price", .str "49000")]])]

/-- A 1000×1000 RGB image with no overlays. -/
def sampleImage : PILImage := ⟨1000, 1000, "RGB", 0, []⟩

/-- A record whose only price is the string "0". -/
def sampleZeroPrice : Json := .obj [("current_price", .str "0")]

/-- A record whose only prices are two equal support levels. -/
def sampleFlatLevels : Json :=
  .obj [("support_levels", .arr [.obj [("price", .str "50")], .obj [("price", .str "50")]])]

/-- A record with `parsed` equal to the number 0 and scrapeable raw text. -/
def sampleRawZero : Json :=
  .obj [("parsed", .num 0), ("raw_text", .str "entry 50 stop 40")]

/-- A record whose `entry` is a bare string rather than a dict. -/
def sampleBadEntry : Json := .obj [("entry", .str "45000")]

/-- The collected-price situations in which `get_price_range` is claimed to
produce a strictly ordered pair: chart bounds in use, no values, a single
positive value, or at least two values that are not all equal. -/
def collectCond (a : Json) : Prop :=
  match chartBoundsOpt a with
  | some _ => True
  | none =>
    match collectPrices a with
    | .ok [] => True
    | .ok [v] => 0 < v
    | .ok l => ∃ x ∈ l, ∃ y ∈ l, x ≠ y
    | .error _ => True

/-- Attempt 1 of the extractor is absent or unparsable. -/
def fencedFails (t : String) : Prop :=
  match fencedCandidate t with
  | some c => parseJson c = none
  | none => True

/-- Attempt 2 of the extractor is absent or unparsable. -/
def braceFails (t : String) : Prop :=
  match braceSpanStr t with
  | some c => parseJson c = none
  | none => True

/-! ### Helper lemmas -/

theorem foldl_min_le_init (l : List ℚ) (a : ℚ) : l.foldl min a ≤ a := by
  induction l generalizing a with
  | nil => exact le_refl a
  | cons h t ih => exact le_trans (ih (min a h)) (min_le_left a h)

theorem foldl_min_le_mem (l : List ℚ) (a x : ℚ) (hx : x ∈ l) : l.foldl min a ≤ x := by
  induction l generalizing a with
  | nil => cases hx
  | cons h t ih =>
    rcases List.mem_cons.mp hx with rfl | hx2
    · exact le_trans (foldl_min_le_init t (min a x)) (min_le_right a x)
    · exact ih (min a h) hx2

theorem init_le_foldl_max (l : List ℚ) (a : ℚ) : a ≤ l.foldl max a := by
  induction l generalizing a with
  | nil => exact le_refl a
  | cons h t ih => exact le_trans (le_max_left a h) (ih (max a h))

theorem mem_le_foldl_max (l : List ℚ) (a x : ℚ) (hx : x ∈ l) : x ≤ l.foldl max a := by
  induction l generalizing a with
  | nil => cases hx
  | cons h t ih =>
    rcases List.mem_cons.mp hx with rfl | hx2
    · exact le_trans (le_max_right a x) (init_le_foldl_max t (max a x))
    · exact ih (max a h) hx2

theorem listMin_le_mem (ps : List ℚ) (x : ℚ) (hx : x ∈ ps) : listMin ps ≤ x := by
  cases ps with
  | nil => cases hx
  | cons p rest =>
    rcases List.mem_cons.mp hx with rfl | hx2
    · exact foldl_min_le_init rest x
    · exact foldl_min_le_mem rest p x hx2

theorem mem_le_listMax (ps : List ℚ) (x : ℚ) (hx : x ∈ ps) : x ≤ listMax ps := by
  cases ps with
  | nil => cases hx
  | cons p rest =>
    rcases List.mem_cons.mp hx with rfl | hx2
    · exact init_le_foldl_max rest x
    · exact mem_le_foldl_max rest p x hx2

theorem padFrac_pos (s : ℚ) : 0 < padFrac s := by
  unfold padFrac
  split
  · norm_num
  · split <;> norm_num

theorem exists_ok_of_isOkB {α : Type} (r : Except PyErr α) (h : isOkB r = true) :
    ∃ x, r = .ok x := by
  cases r with
  | ok x => exact ⟨x, rfl⟩
  | error e => simp [isOkB] at h

theorem chartBoundsOpt_lt (a : Json) (p q : ℚ) (h : chartBoundsOpt a = some (p, q)) :
    p < q := by
  unfold chartBoundsOpt at h
  dsimp only at h
  split at h
  · split at h
    · split at h
      · rename_i hlt
        cases h
        exact hlt
      · cases h
    · cases h
  · cases h

theorem get_price_range_collect (a : Json) (ps : List ℚ)
    (hcb : chartBoundsOpt a = none) (hcp : collectPrices a = .ok ps) :
    get_price_range a = .ok (rangeFromPrices ps) := by
  unfold get_price_range
  rw [hcb, hcp]
  rfl

theorem isObjB_obj (v : Json) (h : isObjB v = true) : ∃ fs, v = .obj fs := by
  cases v with
  | obj fs => exact ⟨fs, rfl⟩
  | null => simp [isObjB] at h
  | bool b => simp [isObjB] at h
  | num q => simp [isObjB] at h
  | str s => simp [isObjB] at h
  | arr l => simp [isObjB] at h

theorem dictOkB_obj (v : Json) (hok : dictOkB v = true) (ht : truthy v = true) :
    ∃ fs, v = .obj fs := by
  apply isObjB_obj
  simp only [dictOkB, ht] at hok
  simpa using hok

theorem listOkB_arr (v : Json) (hok : listOkB v = true) (ht : truthy v = true) :
    ∃ l, v = .arr l ∧ ∀ e ∈ l, ∃ fs, e = .obj fs := by
  simp only [listOkB, ht] at hok
  simp only [Bool.not_true, Bool.false_or] at hok
  cases v with
  | arr l =>
    refine ⟨l, rfl, fun e he => isObjB_obj e ?_⟩
    exact List.all_eq_true.mp hok e he
  | null => simp at hok
  | bool b => simp at hok
  | num q => simp at hok
  | str s => simp at hok
  | obj fs => simp at hok

theorem strOkB_str (v : Json) (hok : strOkB v = true) (ht : truthy v = true) :
    ∃ s, v = .str s := by
  simp only [strOkB, ht, Bool.not_true, Bool.false_or] at hok
  cases v with
  | str s => exact ⟨s, rfl⟩
  | null => simp [isStrB] at hok
  | bool b => simp [isStrB] at hok
  | num q => simp [isStrB] at hok
  | arr l => simp [isStrB] at hok
  | obj fs => simp [isStrB] at hok

theorem entryElems_ok (a : Json) (mn mx : ℚ) (g : Geom)
    (hok : dictOkB (pyGet a "entry") = true) : isOkB (entryElems a mn mx g) = true := by
  unfold entryElems
  by_cases ht : truthy (pyGet a "entry") = true
  · obtain ⟨fs, hv⟩ := dictOkB_obj _ hok ht
    rw [hv] at ht ⊢
    simp only [ht, if_true, objGetE]
    dsimp only [Bind.bind, Except.bind]
    split
    · split
      · split <;> simp [isOkB, pure, Except.pure]
      · simp [isOkB, pure, Except.pure]
    · simp [isOkB, pure, Except.pure]
  · rw [Bool.not_eq_true] at ht
    simp [ht, isOkB, pure, Except.pure]

theorem slElems_ok (a : Json) (mn mx : ℚ) (g : Geom)
    (hok : dictOkB (pyGet a "stop_loss") = true) : isOkB (slElems a mn mx g) = true := by
  unfold slElems
  by_cases ht : truthy (pyGet a "stop_loss") = true
  · obtain ⟨fs, hv⟩ := dictOkB_obj _ hok ht
    rw [hv] at ht ⊢
    simp only [ht, if_true, objGetE]
    dsimp only [Bind.bind, Except.bind]
    split
    · split
      · split <;> simp [isOkB, pure, Except.pure]
      · simp [isOkB, pure, Except.pure]
    · simp [isOkB, pure, Except.pure]
  · rw [Bool.not_eq_true] at ht
    simp [ht, isOkB, pure, Except.pure]

theorem tpLoop_ok : ∀ (l : List Json), (∀ e ∈ l, ∃ fs, e = .obj fs) →
    ∀ (mn mx : ℚ) (g : Geom) (idx : ℕ), isOkB (tpLoop mn mx g idx l) = true
  | [], _, _, _, _, _ => rfl
  | tp :: rest, hl, mn, mx, g, idx => by
    obtain ⟨fs, rfl⟩ := hl tp (List.mem_cons_self tp rest)
    have hrec := tpLoop_ok rest (fun e he => hl e (List.mem_cons_of_mem _ he)) mn mx g (idx + 1)
    obtain ⟨more, hmore⟩ := exists_ok_of_isOkB _ hrec
    unfold tpLoop
    simp only [objGetE]
    dsimp only [Bind.bind, Except.bind]
    rw [hmore]
    simp [isOkB, pure, Except.pure]

theorem supLoop_ok : ∀ (l : List Json), (∀ e ∈ l, ∃ fs, e = .obj fs) →
    ∀ (mn mx : ℚ) (g : Geom) (idx : ℕ), isOkB (supLoop mn mx g idx l) = true
  | [], _, _, _, _, _ => rfl
  | lv :: rest, hl, mn, mx, g, idx => by
    obtain ⟨fs, rfl⟩ := hl lv (List.mem_cons_self lv rest)
    have hrec := supLoop_ok rest (fun e he => hl e (List.mem_cons_of_mem _ he)) mn mx g (idx + 1)
    obtain ⟨more, hmore⟩ := exists_ok_of_isOkB _ hrec
    unfold supLoop
    simp only [objGetE]
    dsimp only [Bind.bind, Except.bind]
    rw [hmore]
    simp [isOkB, pure, Except.pure]

theorem resLoop_ok : ∀ (l : List Json), (∀ e ∈ l, ∃ fs, e = .obj fs) →
    ∀ (mn mx : ℚ) (g : Geom) (idx : ℕ), isOkB (resLoop mn mx g idx l) = true
  | [], _, _, _, _, _ => rfl
  | lv :: rest, hl, mn, mx, g, idx => by
    obtain ⟨fs, rfl⟩ := hl lv (List.mem_cons_self lv rest)
    have hrec := resLoop_ok rest (fun e he => hl e (List.mem_cons_of_mem _ he)) mn mx g (idx + 1)
    obtain ⟨more, hmore⟩ := exists_ok_of_isOkB _ hrec
    unfold resLoop
    simp only [objGetE]
    dsimp only [Bind.bind, Except.bind]
    rw [hmore]
    simp [isOkB, pure, Except.pure]

theorem tpElems_ok (a : Json) (mn mx : ℚ) (g : Geom)
    (hok : listOkB (pyGet a "take_profits") = true) : isOkB (tpElems a mn mx g) = true := by
  unfold tpElems
  by_cases ht : truthy (pyGet a "take_profits") = true
  · obtain ⟨l, hv, hall⟩ := listOkB_arr _ hok ht
    rw [hv] at ht ⊢
    simp only [ht, if_true, pyIterE]
    dsimp only [Bind.bind, Except.bind]
    obtain ⟨es, hes⟩ := exists_ok_of_isOkB _ (tpLoop_ok l hall mn mx g 0)
    rw [hes]
    simp [isOkB]
  · rw [Bool.not_eq_true] at ht
    simp [ht, isOkB, pure, Except.pure]

theorem supportElems_ok (a : Json) (mn mx : ℚ) (g : Geom)
    (hok : listOkB (pyGet a "support_levels") = true) : isOkB (supportElems a mn mx g) = true := by
  unfold supportElems
  by_cases ht : truthy (pyGet a "support_levels") = true
  · obtain ⟨l, hv, hall⟩ := listOkB_arr _ hok ht
    rw [hv] at ht ⊢
    simp only [ht, if_true, pyIterE]
    dsimp only [Bind.bind, Except.bind]
    have hall5 : ∀ e ∈ l.take 5, ∃ fs, e = .obj fs := fun e he => hall e (List.mem_of_mem_take he)
    obtain ⟨es, hes⟩ := exists_ok_of_isOkB _ (supLoop_ok (l.take 5) hall5 mn mx g 0)
    rw [hes]
    simp [isOkB]
  · rw [Bool.not_eq_true] at ht
    simp [ht, isOkB, pure, Except.pure]

theorem resistanceElems_ok (a : Json) (mn mx : ℚ) (g : Geom)
    (hok : listOkB (pyGet a "resistance_levels") = true) :
    isOkB (resistanceElems a mn mx g) = true := by
  unfold resistanceElems
  by_cases ht : truthy (pyGet a "resistance_levels") = true
  · obtain ⟨l, hv, hall⟩ := listOkB_arr _ hok ht
    rw [hv] at ht ⊢
    simp only [ht, if_true, pyIterE]
    dsimp only [Bind.bind, Except.bind]
    have hall5 : ∀ e ∈ l.take 5, ∃ fs, e = .obj fs := fun e he => hall e (List.mem_of_mem_take he)
    obtain ⟨es, hes⟩ := exists_ok_of_isOkB _ (resLoop_ok (l.take 5) hall5 mn mx g 0)
    rw [hes]
    simp [isOkB]
  · rw [Bool.not_eq_true] at ht
    simp [ht, isOkB, pure, Except.pure]

theorem listOkB_map_price (l : List String) :
    listOkB (.arr (l.map (fun p => Json.obj [("price", Json.str p)]))) = true := by
  simp [listOkB, isObjB, List.all_map, Function.comp]

theorem wellShaped_synth (ps : List String) : wellShaped (synthFromPrices ps) = true := by
  have he : pyGet (synthFromPrices ps) "entry" = .obj [("price", scrapedPrice ps 0)] := rfl
  have hsl : pyGet (synthFromPrices ps) "stop_loss" = .obj [("price", scrapedPrice ps 1)] := rfl
  have htp : pyGet (synthFromPrices ps) "take_profits" =
      (if 2 < ps.length then
        Json.arr (((ps.drop 2).take 2).map (fun p => .obj [("price", .str p)]))
      else .arr []) := rfl
  have hsup : pyGet (synthFromPrices ps) "support_levels" = .null := rfl
  have hres : pyGet (synthFromPrices ps) "resistance_levels" = .null := rfl
  have hraw : pyGet (synthFromPrices ps) "raw_text" = .null := rfl
  unfold wellShaped
  rw [he, hsl, htp, hsup, hres, hraw]
  by_cases h2 : 2 < ps.length
  · rw [if_pos h2, listOkB_map_price ((ps.drop 2).take 2)]
    rfl
  · rw [if_neg h2]
    rfl

theorem scrapeStep_shape (a : Json) (hw : wellShaped a = true) :
    ∃ a2 hd, scrapeStep a = .ok (a2, hd) ∧ wellShaped a2 = true := by
  by_cases hhd : hasData a = true
  · exact ⟨a, true, by simp [scrapeStep, hhd], hw⟩
  · rw [Bool.not_eq_true] at hhd
    by_cases hc : (pyEqFalse (pyGet a "parsed") && truthy (pyGet a "raw_text")) = true
    · have ht : truthy (pyGet a "raw_text") = true := by
        simp only [Bool.and_eq_true] at hc
        exact hc.2
      have hs : strOkB (pyGet a "raw_text") = true := by
        simp only [wellShaped, Bool.and_eq_true] at hw
        exact hw.2
      obtain ⟨s, hv⟩ := strOkB_str _ hs ht
      have hpf : pyEqFalse (pyGet a "parsed") = true := by
        simp only [Bool.and_eq_true] at hc
        exact hc.1
      rw [hv] at ht
      by_cases h1 : findall1 s = []
      · by_cases h2 : findall2 s = []
        · refine ⟨a, false, ?_, hw⟩
          simp [scrapeStep, hhd, hv, hpf, ht, h1, h2]
        · refine ⟨synthFromPrices (findall2 s), true, ?_, wellShaped_synth _⟩
          simp [scrapeStep, hhd, hv, hpf, ht, h1, h2]
      · refine ⟨synthFromPrices (findall1 s), true, ?_, wellShaped_synth _⟩
        simp [scrapeStep, hhd, hv, hpf, ht, h1]
    · rw [Bool.not_eq_true] at hc
      exact ⟨a, false, by simp [scrapeStep, hhd, hc], hw⟩

/-! ### Claim theorems -/

/-- C1 (amended): for every price and every range with `max > min`,
`estimate_price_y_position` clamps the price into the range, computes the
inverted normalised position clamped to `[0,1]`, and returns
`chartTopMargin + trunc(normalized × chartHeight)` — truncation toward zero,
not rounding — clamped to `[chartTopMargin, imageHeight − chartBottomMargin]`;
in particular, for range `(0,100)`, image height 1000 and margins 50/50,
price 100 maps to Y=50, price 0 to Y=950 and price 50 to Y=500. -/
theorem claim1_corrected :
    (∀ (price mn mx : ℚ) (h ct cb : ℤ), mn < mx →
       estimate_price_y_position price mn mx h ct cb = toPixelY_trunc price mn mx h ct cb)
  ∧ estimate_price_y_position 100 0 100 1000 50 50 = 50
  ∧ estimate_price_y_position 0 0 100 1000 50 50 = 950
  ∧ estimate_price_y_position 50 0 100 1000 50 50 = 500 := by
  refine ⟨?_, by with_unfolding_all rfl, by with_unfolding_all rfl, by with_unfolding_all rfl⟩
  intro price mn mx h ct cb hlt
  unfold estimate_price_y_position toPixelY_trunc
  dsimp only
  rw [if_neg (by linarith : ¬ (mx - mn ≤ 0))]

/-- C1 counterexample: at price 99.25 in range `(0,100)` with image height
1000 and margins 50/50, the claim's rounding formula gives Y=57 while the
code (`int()` truncation) gives Y=56. -/
theorem claim1_counterexample :
    toPixelY_round (397 / 4) 0 100 1000 50 50 = 57 ∧
    estimate_price_y_position (397 / 4) 0 100 1000 50 50 = 56 :=
  ⟨by with_unfolding_all rfl, by with_unfolding_all rfl⟩

/-- C1 witness: the amended equivalence instantiated at price 75. -/
theorem claim1_witness :
    estimate_price_y_position 75 0 100 1000 50 50 = toPixelY_trunc 75 0 100 1000 50 50 :=
  claim1_corrected.1 75 0 100 1000 50 50 (by norm_num)

/-- C2 (amended): the pair returned by `get_price_range` satisfies
`min < max` whenever the chart-bounds path is used, or no price is collected
(fixed default `(0,100)`), or exactly one positive price is collected, or at
least two prices not all equal are collected. (A single non-positive price,
or two or more all-equal prices, yields a degenerate or inverted pair — see
the counterexample.) -/
theorem claim2_corrected (a : Json) (mn mx : ℚ)
    (h : get_price_range a = .ok (mn, mx)) (hcond : collectCond a) : mn < mx := by
  unfold collectCond at hcond
  cases hcb : chartBoundsOpt a with
  | some r =>
    have h2 : (.ok r : Except PyErr (ℚ × ℚ)) = .ok (mn, mx) := by
      rw [← h]
      unfold get_price_range
      rw [hcb]
    cases r with
    | mk p q =>
      have hpq := Except.ok.inj h2
      have hlt := chartBoundsOpt_lt a p q hcb
      rw [Prod.mk.injEq] at hpq
      rw [← hpq.1, ← hpq.2]
      exact hlt
  | none =>
    cases hcp : collectPrices a with
    | error e =>
      unfold get_price_range at h
      rw [hcb, hcp] at h
      exact Except.noConfusion h
    | ok ps =>
      have hr : rangeFromPrices ps = (mn, mx) :=
        Except.ok.inj (by rw [← get_price_range_collect a ps hcb hcp]; exact h)
      rw [hcb] at hcond
      rw [hcp] at hcond
      dsimp only at hcond
      cases ps with
      | nil =>
        have : ((0 : ℚ), (100 : ℚ)) = (mn, mx) := hr
        rw [Prod.mk.injEq] at this
        rw [← this.1, ← this.2]
        norm_num
      | cons p rest =>
        cases rest with
        | nil =>
          have : (p * (1 - 1 / 5), p * (1 + 1 / 5)) = (mn, mx) := hr
          rw [Prod.mk.injEq] at this
          rw [← this.1, ← this.2]
          have hlt : (1 - 1 / 5 : ℚ) < 1 + 1 / 5 := by norm_num
          exact mul_lt_mul_of_pos_left hlt hcond
        | cons q rest2 =>
          obtain ⟨x, hx, y, hy, hxy⟩ := hcond
          have hspan : listMin (p :: q :: rest2) < listMax (p :: q :: rest2) := by
            rcases lt_or_gt_of_ne hxy with hlt | hlt
            · exact lt_of_le_of_lt (listMin_le_mem _ x hx)
                (lt_of_lt_of_le hlt (mem_le_listMax _ y hy))
            · exact lt_of_le_of_lt (listMin_le_mem _ y hy)
                (lt_of_lt_of_le hlt (mem_le_listMax _ x hx))
          have hpad : 0 ≤ (listMax (p :: q :: rest2) - listMin (p :: q :: rest2)) *
              padFrac (listMax (p :: q :: rest2) - listMin (p :: q :: rest2)) :=
            mul_nonneg (by linarith) (le_of_lt (padFrac_pos _))
          have hform : rangeFromPrices (p :: q :: rest2) =
              (listMin (p :: q :: rest2) -
                 (listMax (p :: q :: rest2) - listMin (p :: q :: rest2)) *
                   padFrac (listMax (p :: q :: rest2) - listMin (p :: q :: rest2)),
               listMax (p :: q :: rest2) +
                 (listMax (p :: q :: rest2) - listMin (p :: q :: rest2)) *
                   padFrac (listMax (p :: q :: rest2) - listMin (p :: q :: rest2))) := rfl
          rw [hform] at hr
          rw [Prod.mk.injEq] at hr
          rw [← hr.1, ← hr.2]
          linarith

/-- C2 counterexample: the record whose only price token is "0" makes
`get_price_range` return the degenerate pair `(0, 0)` — not a strictly
ordered pair and not the documented fallback. -/
theorem claim2_counterexample :
    get_price_range sampleZeroPrice = .ok (0, 0) ∧ decide ((0 : ℚ) < 0) = false :=
  ⟨by with_unfolding_all rfl, by with_unfolding_all rfl⟩

/-- C2 witness: the amended invariant instantiated on the end-to-end trade
record, whose range is `(43500, 49500)`. -/
theorem claim2_witness : (43500 : ℚ) < 49500 :=
  claim2_corrected sampleTrade 43500 49500 (by with_unfolding_all rfl)
    (by
      have hx : (45000 : ℚ) ∈ [(45000 : ℚ), 44000, 47000, 49000] := by simp
      have hy : (44000 : ℚ) ∈ [(45000 : ℚ), 44000, 47000, 49000] := by simp
      with_unfolding_all exact ⟨45000, hx, 44000, hy, by norm_num⟩)

/-- C5: `parse_price` maps the canonical forms "$1,234.50" → 1234.50,
"300K" → 300000, "1.5M" → 1500000, "2B" → 2000000000; "" and "abc" → none;
and whenever the cleaned, suffix-stripped numeral candidate is not a valid
decimal numeral, the result is none (the function is total, so it never
raises). -/
theorem claim5_confirmed :
    parse_price "$1,234.50" = some (2469 / 2)
  ∧ parse_price "300K" = some 300000
  ∧ parse_price "1.5M" = some 1500000
  ∧ parse_price "2B" = some 2000000000
  ∧ parse_price "" = none
  ∧ parse_price "abc" = none
  ∧ (∀ s : String, pyFloatChars (numeralAndMult (cleanPrice s)).1 = none →
       parse_price s = none) := by
  refine ⟨by with_unfolding_all rfl, by with_unfolding_all rfl, by with_unfolding_all rfl,
    by with_unfolding_all rfl, by with_unfolding_all rfl, by with_unfolding_all rfl, ?_⟩
  intro s hfl
  unfold parse_price
  by_cases hse : s.isEmpty = true
  · simp [hse]
  · rw [Bool.not_eq_true] at hse
    rw [hse]
    simp only [Bool.false_eq_true, if_false]
    rcases hnm : numeralAndMult (cleanPrice s) with ⟨n, m⟩
    rw [hnm] at hfl
    dsimp only at hfl
    rw [hfl]

/-- C5 witness: the unparsable-numeral clause instantiated at "xy". -/
theorem claim5_witness : parse_price "xy" = none :=
  claim5_confirmed.2.2.2.2.2.2 "xy" (by with_unfolding_all rfl)

/-- C3: for the record {entry 45000, stop loss 44000, take profits 47000 and
49000} annotated onto a 1000×1000 image, the stop-loss line is drawn at
Y=850, strictly below (greater than) the entry marker at Y=710 and both
take-profit lines at Y=430 and Y=150. -/
theorem claim3_confirmed :
    entryArrowYs (okOverlays (annotate_chart sampleImage sampleTrade)) = [710]
  ∧ slLineYs (okOverlays (annotate_chart sampleImage sampleTrade)) = [850]
  ∧ tpLineYs (okOverlays (annotate_chart sampleImage sampleTrade)) = [430, 150]
  ∧ (710 : ℤ) < 850 ∧ (430 : ℤ) < 850 ∧ (150 : ℤ) < 850 :=
  ⟨by with_unfolding_all rfl, by with_unfolding_all rfl, by with_unfolding_all rfl,
   by norm_num, by norm_num, by norm_num⟩

/-- C4 (amended): `annotate_chart` returns an image (never raises) for every
input image and every record whose fields are well-shaped — `entry` and
`stop_loss` dicts when truthy, the three level fields lists of dicts when
truthy, `raw_text` a string when truthy. (On ill-shaped fields the drawing
stages are not protected and an exception propagates — see the
counterexample; the only guarded step is range estimation, which degrades to
a fallback range, not to returning the unmodified input.) -/
theorem claim4_corrected (img : PILImage) (a : Json) (hw : wellShaped a = true) :
    isOkB (annotate_chart img a) = true := by
  cases a with
  | obj fs =>
    obtain ⟨a2, hd, hstep, hw2⟩ := scrapeStep_shape (.obj fs) hw
    simp only [wellShaped, Bool.and_eq_true] at hw2
    obtain ⟨⟨⟨⟨⟨hd1, hd2⟩, hl1⟩, hl2⟩, hl3⟩, _⟩ := hw2
    unfold annotate_chart
    rw [hstep]
    dsimp only [Bind.bind, Except.bind]
    cases hd with
    | false => rfl
    | true =>
      rw [if_pos rfl]
      obtain ⟨e1, he1⟩ := exists_ok_of_isOkB _
        (entryElems_ok a2 (resolveRange a2).1 (resolveRange a2).2
          (mkGeom img.width img.height) hd1)
      obtain ⟨e2, he2⟩ := exists_ok_of_isOkB _
        (slElems_ok a2 (resolveRange a2).1 (resolveRange a2).2
          (mkGeom img.width img.height) hd2)
      obtain ⟨e3, he3⟩ := exists_ok_of_isOkB _
        (tpElems_ok a2 (resolveRange a2).1 (resolveRange a2).2
          (mkGeom img.width img.height) hl1)
      obtain ⟨e4, he4⟩ := exists_ok_of_isOkB _
        (supportElems_ok a2 (resolveRange a2).1 (resolveRange a2).2
          (mkGeom img.width img.height) hl2)
      obtain ⟨e5, he5⟩ := exists_ok_of_isOkB _
        (resistanceElems_ok a2 (resolveRange a2).1 (resolveRange a2).2
          (mkGeom img.width img.height) hl3)
      rw [he1]
      dsimp only [Bind.bind, Except.bind]
      rw [he2]
      dsimp only [Bind.bind, Except.bind]
      rw [he3]
      dsimp only [Bind.bind, Except.bind]
      rw [he4]
      dsimp only [Bind.bind, Except.bind]
      rw [he5]
      rfl
  | null => rfl
  | bool b => rfl
  | num q => rfl
  | str s => rfl
  | arr l => rfl

/-- C4 counterexample: a record whose `entry` field is the bare string
"45000" (truthy but not a dict) makes `annotate_chart` raise
`AttributeError` from the entry-render stage, which is outside any
`try/except`; the caller receives the exception, not an image. -/
theorem claim4_counterexample :
    annotate_chart sampleImage sampleBadEntry = .error .attributeError := by
  with_unfolding_all rfl

/-- C4 witness: the amended guarantee instantiated on the end-to-end trade
record. -/
theorem claim4_witness : isOkB (annotate_chart sampleImage sampleTrade) = true :=
  claim4_corrected sampleImage sampleTrade (by with_unfolding_all rfl)

/-- C6: when the chart-bounds path is not used and price collection
succeeds, `get_price_range` returns `rangeFromPrices` of the collected
values: `(0,100)` for none, `(0.8v, 1.2v)` for a single value `v`, and for
two or more values `(lo − span·f, hi + span·f)` with `lo = min`, `hi = max`,
`span = hi − lo` and `f` = 5% if `span > 1,000,000`, 10% if `span > 1,000`,
15% otherwise (this is the definition of `padFrac`). -/
theorem claim6_confirmed (a : Json) (ps : List ℚ)
    (hcb : chartBoundsOpt a = none) (hcp : collectPrices a = .ok ps) :
    get_price_range a = .ok (rangeFromPrices ps)
  ∧ (ps = [] → rangeFromPrices ps = (0, 100))
  ∧ (∀ v, ps = [v] → rangeFromPrices ps = (v * (8 / 10), v * (12 / 10)))
  ∧ (2 ≤ ps.length →
      rangeFromPrices ps =
        (listMin ps - (listMax ps - listMin ps) * padFrac (listMax ps - listMin ps),
         listMax ps + (listMax ps - listMin ps) * padFrac (listMax ps - listMin ps))) := by
  refine ⟨get_price_range_collect a ps hcb hcp, ?_, ?_, ?_⟩
  · rintro rfl
    rfl
  · rintro v rfl
    show (v * (1 - 1 / 5), v * (1 + 1 / 5)) = _
    rw [Prod.mk.injEq]
    constructor <;> ring_nf
  · intro hlen
    cases ps with
    | nil => simp at hlen
    | cons p rest =>
      cases rest with
      | nil => simp at hlen
      | cons q rest2 => rfl

/-- C6 witness: the collection clause instantiated on the end-to-end trade
record. -/
theorem claim6_witness :
    get_price_range sampleTrade = .ok (rangeFromPrices [45000, 44000, 47000, 49000]) :=
  (claim6_confirmed sampleTrade [45000, 44000, 47000, 49000]
    (by with_unfolding_all rfl) (by with_unfolding_all rfl)).1

/-- C7 (amended): in the range-resolution step of `annotate_chart`, a
degenerate or inverted estimate (`min ≥ max`) is replaced by a ±20% window
around the mean of the fix-up prices — which are collected only from
`current_price` (and only when it is a dict), `entry`, `stop_loss` and
`take_profits`, not from support or resistance levels — with `(0, 100)` used
when that collection is empty or itself fails; an internal failure of the
estimator likewise yields `(0, 100)`; a well-ordered estimate is kept. -/
theorem claim7_corrected (a : Json) :
    (∀ mn mx, get_price_range a = .ok (mn, mx) → mx ≤ mn →
       resolveRange a =
         (match fixTpPrices a with
          | .ok tps =>
            if (fixKeyPrices a ++ tps).isEmpty then (0, 100)
            else (listAvg (fixKeyPrices a ++ tps) * (4 / 5),
                  listAvg (fixKeyPrices a ++ tps) * (6 / 5))
          | .error _ => (0, 100)))
  ∧ (∀ e, get_price_range a = .error e → resolveRange a = (0, 100))
  ∧ (∀ mn mx, get_price_range a = .ok (mn, mx) → mn < mx → resolveRange a = (mn, mx)) := by
  refine ⟨?_, ?_, ?_⟩
  · intro mn mx h hle
    unfold resolveRange
    rw [h]
    dsimp only [Bind.bind, Except.bind]
    rw [if_pos hle]
    cases htp : fixTpPrices a with
    | ok tps =>
      dsimp only [Bind.bind, Except.bind]
      by_cases he : (fixKeyPrices a ++ tps).isEmpty = true
      · rw [if_pos he, if_pos he]
        rfl
      · rw [Bool.not_eq_true] at he
        rw [if_neg (by simp [he]), if_neg (by simp [he])]
        rfl
    | error e => rfl
  · intro e h
    unfold resolveRange
    rw [h]
    rfl
  · intro mn mx h hlt
    unfold resolveRange
    rw [h]
    dsimp only [Bind.bind, Except.bind]
    rw [if_neg (not_le.mpr hlt)]
    rfl

/-- C7 counterexample: the record with two equal support levels at 50 has
available raw prices with mean 50, so the claim requires the window
`(40, 60)`; instead the code's fix-up (which ignores support levels) finds
no prices and substitutes `(0, 100)`. -/
theorem claim7_counterexample :
    get_price_range sampleFlatLevels = .ok (50, 50)
  ∧ resolveRange sampleFlatLevels = (0, 100)
  ∧ (50 * (4 / 5 : ℚ), 50 * (6 / 5 : ℚ)) = (40, 60)
  ∧ decide (resolveRange sampleFlatLevels = ((40 : ℚ), (60 : ℚ))) = false :=
  ⟨by with_unfolding_all rfl, by with_unfolding_all rfl,
   by norm_num, by with_unfolding_all rfl⟩

/-- C7 witness: the degenerate branch instantiated on the flat-levels
record. -/
theorem claim7_witness : resolveRange sampleFlatLevels = (0, 100) := by
  have h := (claim7_corrected sampleFlatLevels).1 50 50 (by with_unfolding_all rfl) le_rfl
  rw [h]
  with_unfolding_all rfl

/-- C8: for every input string, `extract_json_from_response` first returns
the parse of the fenced-block capture when that parses; failing that, the
parse of the substring from the first opening brace to the last closing
brace when that parses; and when neither parses it returns the record
`{raw_text: <original text>, parsed: false}`. The function is total, so it
never raises. -/
theorem claim8_confirmed (t : String) :
    (∀ c j, fencedCandidate t = some c → parseJson c = some j →
       extract_json_from_response t = j)
  ∧ (∀ c j, fencedFails t → braceSpanStr t = some c → parseJson c = some j →
       extract_json_from_response t = j)
  ∧ (fencedFails t → braceFails t → extract_json_from_response t = jsonFallback t) := by
  refine ⟨?_, ?_, ?_⟩
  · intro c j hfc hpj
    simp only [extract_json_from_response, hfc, hpj]
  · intro c j hff hbs hpj
    unfold fencedFails at hff
    cases hfc : fencedCandidate t with
    | none => simp only [extract_json_from_response, hfc, hbs, hpj]
    | some cf =>
      rw [hfc] at hff
      dsimp only at hff
      simp only [extract_json_from_response, hfc, hff, hbs, hpj]
  · intro hff hbf
    unfold fencedFails at hff
    unfold braceFails at hbf
    cases hfc : fencedCandidate t with
    | none =>
      cases hbs : braceSpanStr t with
      | none => simp only [extract_json_from_response, hfc, hbs]
      | some cb =>
        rw [hbs] at hbf
        dsimp only at hbf
        simp only [extract_json_from_response, hfc, hbs, hbf]
    | some cf =>
      rw [hfc] at hff
      dsimp only at hff
      cases hbs : braceSpanStr t with
      | none => simp only [extract_json_from_response, hfc, hff, hbs]
      | some cb =>
        rw [hbs] at hbf
        dsimp only at hbf
        simp only [extract_json_from_response, hfc, hff, hbs, hbf]

/-- C8 witness: the fallback clause instantiated on a text with no JSON. -/
theorem claim8_witness :
    extract_json_from_response "no json here" = jsonFallback "no json here" :=
  (claim8_confirmed "no json here").2.2
    (by with_unfolding_all exact trivial)
    (by with_unfolding_all exact trivial)

/-- C9 (amended): a record with none of the six data fields returns the
input image unchanged provided `parsed` is not false-equal in Python's `==`
sense (which also equates the numbers 0 and 0.0 with `False`) or `raw_text`
is absent/falsy. -/
theorem claim9_corrected (img : PILImage) (fs : List (String × Json))
    (h1 : truthy (pyGet (.obj fs) "entry") = false)
    (h2 : truthy (pyGet (.obj fs) "stop_loss") = false)
    (h3 : truthy (pyGet (.obj fs) "take_profits") = false)
    (h4 : truthy (pyGet (.obj fs) "support_levels") = false)
    (h5 : truthy (pyGet (.obj fs) "resistance_levels") = false)
    (h6 : truthy (pyGet (.obj fs) "current_price") = false)
    (h7 : pyEqFalse (pyGet (.obj fs) "parsed") = false ∨
          truthy (pyGet (.obj fs) "raw_text") = false) :
    annotate_chart img (.obj fs) = .ok img := by
  have hhd : hasData (.obj fs) = false := by
    simp [hasData, h1, h2, h3, h4, h5, h6]
  have hcond : (pyEqFalse (pyGet (.obj fs) "parsed") &&
      truthy (pyGet (.obj fs) "raw_text")) = false := by
    rcases h7 with h | h <;> simp [h]
  have hstep : scrapeStep (.obj fs) = .ok (.obj fs, false) := by
    unfold scrapeStep
    rw [hhd, hcond]
    rfl
  unfold annotate_chart
  dsimp only
  rw [hstep]
  rfl

/-- C9 counterexample: the record `{parsed: 0, raw_text: "entry 50 stop
40"}` has no structured fields and its `parsed` is the number 0 — not the
boolean false — yet because Python's `0 == False` holds, the code scrapes
the raw text and draws four elements, so the result is not pixel-identical
to the input. -/
theorem claim9_counterexample :
    hasData sampleRawZero = false
  ∧ pyGet sampleRawZero "parsed" = .num 0
  ∧ isOkB (annotate_chart sampleImage sampleRawZero) = true
  ∧ (okOverlays (annotate_chart sampleImage sampleRawZero)).length = 4
  ∧ sampleImage.overlays.length = 0 :=
  ⟨by with_unfolding_all rfl, rfl, by with_unfolding_all rfl,
   by with_unfolding_all rfl, rfl⟩

/-- C9 witness: the amended no-draw guarantee instantiated on a record with
a single irrelevant field. -/
theorem claim9_witness :
    annotate_chart sampleImage (.obj [("note", .str "hi")]) = .ok sampleImage :=
  claim9_corrected sampleImage [("note", .str "hi")] rfl rfl rfl rfl rfl rfl (Or.inl rfl)

/-- C10 (implicit): when the chart-bounds path is not used and at least two
prices are collected, every collected value lies inside the returned range,
because the applied padding is never negative — including when all the
collected prices are equal. -/
theorem claim10_confirmed (a : Json) (ps : List ℚ)
    (hcb : chartBoundsOpt a = none) (hcp : collectPrices a = .ok ps)
    (hlen : 2 ≤ ps.length) :
    get_price_range a = .ok (rangeFromPrices ps)
  ∧ ∀ v ∈ ps, (rangeFromPrices ps).1 ≤ v ∧ v ≤ (rangeFromPrices ps).2 := by
  refine ⟨get_price_range_collect a ps hcb hcp, ?_⟩
  intro v hv
  cases ps with
  | nil => cases hv
  | cons p rest =>
    cases rest with
    | nil => simp at hlen
    | cons q rest2 =>
      have hform : rangeFromPrices (p :: q :: rest2) =
          (listMin (p :: q :: rest2) -
             (listMax (p :: q :: rest2) - listMin (p :: q :: rest2)) *
               padFrac (listMax (p :: q :: rest2) - listMin (p :: q :: rest2)),
           listMax (p :: q :: rest2) +
             (listMax (p :: q :: rest2) - listMin (p :: q :: rest2)) *
               padFrac (listMax (p :: q :: rest2) - listMin (p :: q :: rest2))) := rfl
      rw [hform]
      have hmnv := listMin_le_mem (p :: q :: rest2) v hv
      have hvmx := mem_le_listMax (p :: q :: rest2) v hv
      have hspan : 0 ≤ listMax (p :: q :: rest2) - listMin (p :: q :: rest2) := by
        have ha := listMin_le_mem (p :: q :: rest2) p (by simp)
        have hb := mem_le_listMax (p :: q :: rest2) p (by simp)
        linarith
      have hpad : 0 ≤ (listMax (p :: q :: rest2) - listMin (p :: q :: rest2)) *
          padFrac (listMax (p :: q :: rest2) - listMin (p :: q :: rest2)) :=
        mul_nonneg hspan (le_of_lt (padFrac_pos _))
      exact ⟨by dsimp only; linarith, by dsimp only; linarith⟩

/-- C10 witness: containment instantiated on the end-to-end trade record at
the collected value 44000. -/
theorem claim10_witness :
    (rangeFromPrices [45000, 44000, 47000, 49000]).1 ≤ 44000 ∧
    (44000 : ℚ) ≤ (rangeFromPrices [45000, 44000, 47000, 49000]).2 :=
  (claim10_confirmed sampleTrade [45000, 44000, 47000, 49000]
    (by with_unfolding_all rfl) (by with_unfolding_all rfl) (by norm_num)).2 44000 (by simp)

end ChartAnnot
